import Mathlib

/-!
# Verification of the logging subsystem (`app/core/config.py`, `app/core/logging.py`)

A shallow embedding of the repository's logging core: the `LoggerSettings`
model with its rotation/retention parsers and handler normalization, the
JSON/CSV/text formatter layer, and the `get_logger` assembly routine.
Strings are modelled over their character lists; the Python string
primitives used by the source (`strip`, `lower`, `split(",")`, `isdigit`,
`int`, `replace`) are given explicit ASCII models below.
-/

namespace FastApiLog

/-- Model of Python `str.strip()`: drop leading and trailing whitespace
(ASCII model of the source's Unicode stripping). -/
def pyStrip (s : String) : String :=
  ⟨((s.data.dropWhile Char.isWhitespace).reverse.dropWhile Char.isWhitespace).reverse⟩

/-- Model of Python `str.lower()` (ASCII model). -/
def pyLower (s : String) : String :=
  ⟨s.data.map Char.toLower⟩

/-- Model of Python `s[:-1]`: the string without its final character. -/
def pyDropLast (s : String) : String :=
  ⟨s.data.dropLast⟩

/-- Last element of a character list (default `' '`, never reached by the
source, which guards nonemptiness first). -/
def lastChar : List Char → Char
  | [] => ' '
  | [c] => c
  | _ :: c :: rest => lastChar (c :: rest)

/-- Model of Python `s[-1]`: the final character (only evaluated by the
source under a nonemptiness guard; the default is never reached there). -/
def pyLast (s : String) : Char :=
  lastChar s.data

/-- Model of Python `str.isdigit()` on ASCII input: nonempty and all
characters are decimal digits. -/
def pyIsDigit (s : String) : Bool :=
  !s.data.isEmpty && s.data.all Char.isDigit

/-- Numeric value of a decimal digit string, as computed by Python `int()`
on a digit-only string. -/
def natOfDigits (l : List Char) : Nat :=
  l.foldl (fun a c => 10 * a + (c.toNat - 48)) 0

/-- Model of Python `int()` applied to a digit-only string. -/
def pyInt (s : String) : Nat :=
  natOfDigits s.data

/-- Model of Python `str.split(",")` at the character-list level. -/
def splitComma : List Char → List (List Char)
  | [] => [[]]
  | c :: rest =>
    match splitComma rest with
    | [] => [[]]
    | g :: gs => if c = ',' then [] :: g :: gs else (c :: g) :: gs

/-- The unit suffixes accepted by the rotation/retention parsers,
`{"s", "m", "h", "d", "w"}` in the source. -/
def unitChars : List Char := ['s', 'm', 'h', 'd', 'w']

/-- `LoggerSettings.get_default_handlers` from `config.py`: always
`["console"]`. -/
def get_default_handlers : List String := ["console"]

/-- The `LoggerSettings` model (`config.py`). `file` is the value after the
`_pathify` validator (blank strings already normalized to `none`), and
`handlers` is the value after the `_parse_handlers` validator. Field
defaults mirror the pydantic `Field(default=...)` declarations. -/
structure LoggerSettings where
  level : String := "INFO"
  format : String := "text"
  file : Option String := none
  retention : Option String := none
  rotation : Option String := none
  handlers : List String := get_default_handlers
  date_format : String := "%Y-%m-%d %H:%M:%S"
  message_format : String := "%(asctime)s - %(name)s - %(levelname)s - %(message)s"

/-- Input shapes accepted by the `_parse_handlers` field validator:
a raw string, a list, or anything else (e.g. `None`). -/
inductive HandlersInput where
  | strInput (s : String)
  | listInput (l : List String)
  | otherInput

/-- `LoggerSettings._parse_handlers` (`config.py`): a comma-separated string
is split, each segment stripped, blank segments dropped; a list passes
through; any other shape yields `[]`. -/
def _parse_handlers : HandlersInput → List String
  | .strInput v => ((splitComma v.data).map (fun h => pyStrip ⟨h⟩)).filter (fun h => !h.isEmpty)
  | .listInput v => v
  | .otherInput => []

/-- `LoggerSettings.get_log_level_int` (`config.py`): the `log_levels`
dictionary lookup with default `logging.INFO` (20). -/
def get_log_level_int (self : LoggerSettings) : Nat :=
  if self.level = "CRITICAL" then 50
  else if self.level = "ERROR" then 40
  else if self.level = "WARNING" then 30
  else if self.level = "INFO" then 20
  else if self.level = "DEBUG" then 10
  else if self.level = "NOTSET" then 0
  else 20

/-- `LoggerSettings.parse_rotation` (`config.py`). Returns the
`(when, interval)` pair for `TimedRotatingFileHandler`; `"W0"` is the
weekly unit anchored to Monday. The leading `match`/`isEmpty` test models
Python's `if not self.rotation` (falsy for both `None` and `""`). -/
def parse_rotation (self : LoggerSettings) : String × Nat :=
  match self.rotation with
  | none => ("D", 1)
  | some raw =>
    if raw.data.isEmpty then ("D", 1)
    else
      let s := pyLower (pyStrip raw)
      if s.data.isEmpty || !(pyIsDigit (pyDropLast s)) || !(unitChars.contains (pyLast s)) then
        ("D", 1)
      else
        let n := pyInt (pyDropLast s)
        let unit := pyLast s
        if unit = 's' then ("S", n)
        else if unit = 'm' then ("M", n)
        else if unit = 'h' then ("H", n)
        else if unit = 'd' then ("D", n)
        else if unit = 'w' then ("W0", n)
        else ("D", 1)

/-- `LoggerSettings.parse_retention` (`config.py`). The `rotation_when`
argument is accepted (as in the source signature) but never used by the
body; on a shape match the numeric value is returned unchanged. -/
def parse_retention (self : LoggerSettings) (rotation_when : String) : Nat :=
  match self.retention with
  | none => 7
  | some raw =>
    if raw.data.isEmpty then 7
    else
      let s := pyLower (pyStrip raw)
      if s.data.isEmpty || !(pyIsDigit (pyDropLast s)) || !(unitChars.contains (pyLast s)) then
        7
      else
        pyInt (pyDropLast s)

/-- A log record as seen by the formatters (`logging.py`): `msg` is the
fully rendered message text (`record.getMessage()`), and `exc_info` is the
formatted exception text when exception context was supplied with the
record (`self.formatException(record.exc_info)`), else `none`. -/
structure LogRecord where
  created : Nat
  levelname : String
  name : String
  msg : String
  module : String
  lineno : Nat
  exc_info : Option String := none

/-- Character-level model of `str.replace('"', '""')`: every double quote
is doubled. -/
def escList : List Char → List Char
  | [] => []
  | c :: rest => if c = '"' then '"' :: '"' :: escList rest else c :: escList rest

/-- `message.replace('"', '""')` from `CsvFormatter.format`. -/
def csvEscape (s : String) : String :=
  ⟨escList s.data⟩

/-- `CsvFormatter.format` (`logging.py`). The timestamp rendering
`datetime.fromtimestamp(record.created, tz=UTC).strftime(date_format)` is
modelled by an explicit rendering function `timeR` applied to
`record.created` and the date format, since `strftime` itself is a
platform library call. Note the body never consults `record.exc_info`. -/
def CsvFormatter_format (timeR : Nat → String → String) (date_format : String)
    (r : LogRecord) : String :=
  let timestamp := timeR r.created date_format
  let message := csvEscape r.msg
  "\"" ++ timestamp ++ "\",\"" ++ r.levelname ++ "\",\"" ++ r.name ++ "\",\"" ++ message ++ "\""

/-- JSON values produced by `JsonFormatter.format`: the `log_data` dict
only ever holds strings and one integer, so the model covers exactly
string and natural-number leaves. -/
inductive JValue where
  | str (s : String)
  | num (n : Nat)

/-- Lowercase hexadecimal digit, used by the `\uXXXX` escapes of
`json.dumps` (default `ensure_ascii=True`). -/
def hexDig (n : Nat) : Char :=
  "0123456789abcdef".data.getD (n % 16) '0'

/-- Four lowercase hex digits of `n` (for `n < 65536`). -/
def toHex4 (n : Nat) : List Char :=
  [hexDig (n / 4096), hexDig (n / 256), hexDig (n / 16), hexDig n]

/-- Per-character escaping of CPython `json.dumps` with its default
options (`ensure_ascii=True`): the two mandatory escapes, the five short
control escapes, `\uXXXX` for remaining control and non-ASCII characters,
and a surrogate pair for code points beyond the basic plane. -/
def jsonEscapeChar (c : Char) : List Char :=
  if c = '"' then ['\\', '"']
  else if c = '\\' then ['\\', '\\']
  else if c = '\n' then ['\\', 'n']
  else if c = '\t' then ['\\', 't']
  else if c = '\r' then ['\\', 'r']
  else if c.toNat = 8 then ['\\', 'b']
  else if c.toNat = 12 then ['\\', 'f']
  else if c.toNat < 32 then '\\' :: 'u' :: toHex4 c.toNat
  else if c.toNat < 127 then [c]
  else if c.toNat ≤ 65535 then '\\' :: 'u' :: toHex4 c.toNat
  else
    ('\\' :: 'u' :: toHex4 (55296 + (c.toNat - 65536) / 1024)) ++
      ('\\' :: 'u' :: toHex4 (56320 + (c.toNat - 65536) % 1024))

/-- String-body escaping of `json.dumps`. -/
def jsonEscape (s : String) : String :=
  ⟨(s.data.map jsonEscapeChar).flatten⟩

/-- A JSON string literal as serialized by `json.dumps`. -/
def jsonDumpStr (s : String) : String :=
  "\"" ++ jsonEscape s ++ "\""

/-- Decimal rendering of a natural number (Python's `int` rendering,
used by `json.dumps` for the `line` field). -/
def natReprAux : Nat → List Char → List Char
  | n, acc =>
    let acc1 := hexDig (n % 10) :: acc
    if n < 10 then acc1 else natReprAux (n / 10) acc1

/-- Decimal string of a natural number. -/
def natRepr (n : Nat) : String :=
  ⟨natReprAux n []⟩

/-- Serialization of a single JSON leaf value. -/
def jsonVal : JValue → String
  | .str s => jsonDumpStr s
  | .num n => natRepr n

/-- The comma-joined `"key": value` members of a serialized JSON object,
with `json.dumps`'s default `", "` / `": "` separators. -/
def jsonMembers : List (String × JValue) → String
  | [] => ""
  | [kv] => jsonDumpStr kv.1 ++ ": " ++ jsonVal kv.2
  | kv :: rest => jsonDumpStr kv.1 ++ ": " ++ jsonVal kv.2 ++ ", " ++ jsonMembers rest

/-- `json.dumps` (default options) on a flat string/int dictionary — the
only shape `JsonFormatter.format` ever builds. -/
def jsonDumps (fields : List (String × JValue)) : String :=
  "\x7b" ++ jsonMembers fields ++ "\x7d"

/-- The `log_data` dictionary built by `JsonFormatter.format`
(`logging.py`), in construction order: six fixed keys, plus `exception`
appended exactly when exception context is present. -/
def logData (timeR : Nat → String → String) (date_format : String)
    (r : LogRecord) : List (String × JValue) :=
  [("timestamp", JValue.str (timeR r.created date_format)),
   ("level", JValue.str r.levelname),
   ("name", JValue.str r.name),
   ("message", JValue.str r.msg),
   ("module", JValue.str r.module),
   ("line", JValue.num r.lineno)] ++
    (match r.exc_info with
     | some e => [("exception", JValue.str e)]
     | none => [])

/-- `JsonFormatter.format` (`logging.py`): `json.dumps(log_data)`. -/
def JsonFormatter_format (timeR : Nat → String → String) (date_format : String)
    (r : LogRecord) : String :=
  jsonDumps (logData timeR date_format r)

/-- The three formatter kinds of `logging.py`. -/
inductive FmtKind where
  | json
  | csv
  | text
deriving DecidableEq

/-- A constructed formatter object: its kind plus the `date_format` it was
constructed with (`logger_settings.date_format` in the source). -/
structure Formatter where
  kind : FmtKind
  date_format : String
deriving DecidableEq

/-- `get_formatter` (`logging.py`): case-insensitive dispatch on the
format identifier, defaulting to the text formatter. -/
def get_formatter (self : LoggerSettings) (format_type : String) : Formatter :=
  if pyLower format_type = "json" then ⟨FmtKind.json, self.date_format⟩
  else if pyLower format_type = "csv" then ⟨FmtKind.csv, self.date_format⟩
  else ⟨FmtKind.text, self.date_format⟩

/-- A constructed destination (handler) with its configuration
(`logging.py`): console stream, timed rotating file, or syslog. -/
inductive Handler where
  | console (formatter : Formatter)
  | file (filename : String) (whenUnit : String) (interval : Nat)
      (backupCount : Nat) (formatter : Formatter)
  | syslog (formatter : Formatter)
deriving DecidableEq

/-- `get_console_handler` (`logging.py`). -/
def get_console_handler (s : LoggerSettings) : Handler :=
  Handler.console (get_formatter s s.format)

/-- `get_file_handler` (`logging.py`): `none` when no file path is
configured, otherwise a `TimedRotatingFileHandler` parameterized by the
parsed rotation and retention policies. (The `mkdir` of the parent
directory is a filesystem side effect outside the value model.) -/
def get_file_handler (s : LoggerSettings) : Option Handler :=
  match s.file with
  | none => none
  | some path =>
    let wi := parse_rotation s
    let backup := parse_retention s wi.1
    some (Handler.file path wi.1 wi.2 backup (get_formatter s s.format))

/-- `get_syslog_handler` (`logging.py`). (The `/dev/log` socket fallback
is an I/O concern; the constructed value is a syslog handler either way.) -/
def get_syslog_handler (s : LoggerSettings) : Handler :=
  Handler.syslog (get_formatter s s.format)

/-- A named logger's mutable state: numeric level and attached handlers. -/
structure Logger where
  level : Nat := 30
  handlers : List Handler := []
deriving DecidableEq

/-- The clearing loop of `get_logger`:
`for handler in logger.handlers[:]: logger.removeHandler(handler)` —
iterate over a copy of the handler list, removing the first occurrence of
each element from the live list. -/
def clearHandlers (hs : List Handler) : List Handler :=
  hs.foldl (fun cur h => cur.erase h) hs

/-- `get_logger` (`logging.py`). `prev` is the logger state returned by
`logging.getLogger(name)` (the process-wide registry lookup). The handler
loop iterates `logger_settings.get_default_handlers()` — not the
`handlers` field of the settings — exactly as the source does; `addHandler`
is modelled as append, since each `get_*_handler` call constructs a fresh
handler object that is never already attached. -/
def get_logger (s : LoggerSettings) (prev : Logger) : Logger :=
  let cleared := clearHandlers prev.handlers
  let lvl := get_log_level_int s
  let hs := get_default_handlers.foldl (fun acc ht =>
    if ht = "console" then acc ++ [get_console_handler s]
    else if ht = "file" then
      match get_file_handler s with
      | some h => acc ++ [h]
      | none => acc
    else if ht = "syslog" then acc ++ [get_syslog_handler s]
    else acc) cleared
  { level := lvl, handlers := hs }

/-- Parser for a line of fully-double-quoted CSV (the shape §4.4 of the
spec describes): reads the field characters after an opening quote into
`acc`, treating `""` as an escaped quote; a closing quote must be followed
by end of input or by `,` and the next field's opening quote. Used to
state "exactly four comma-separated, double-quoted fields". -/
def csvAux (acc : List Char) : List Char → Option (List String)
  | [] => none
  | c :: rest =>
    if c = '"' then
      match rest with
      | [] => some [⟨acc⟩]
      | c2 :: rest2 =>
        if c2 = '"' then csvAux (acc ++ ['"']) rest2
        else if c2 = ',' then
          match rest2 with
          | [] => none
          | c3 :: rest3 =>
            if c3 = '"' then (csvAux [] rest3).map (fun fs => String.mk acc :: fs)
            else none
        else none
    else csvAux (acc ++ [c]) rest

/-- Parse a full CSV line of double-quoted fields. -/
def parseCsvLine (s : String) : Option (List String) :=
  match s.data with
  | '"' :: rest => csvAux [] rest
  | _ => none

/-- The spec's well-formedness shape for rotation strings
(§4.2: after trimming and lowercasing, `<digits><unit>` with
unit ∈ {s, m, h, d, w}). -/
def rotationShape (s : LoggerSettings) : Prop :=
  ∃ raw ds u, s.rotation = some raw ∧
    (pyLower (pyStrip raw)).data = ds ++ [u] ∧
    ds ≠ [] ∧ ds.all Char.isDigit = true ∧ u ∈ unitChars

/-- The spec's well-formedness shape for retention strings (§4.3, the
same `<digits><unit>` shape as rotation). -/
def retentionShape (s : LoggerSettings) : Prop :=
  ∃ raw ds u, s.retention = some raw ∧
    (pyLower (pyStrip raw)).data = ds ++ [u] ∧
    ds ≠ [] ∧ ds.all Char.isDigit = true ∧ u ∈ unitChars

/-- The spec's unit mapping (§4.2): s→seconds, m→minutes, h→hours,
d→days, w→weeks (Monday-anchored, the `"W0"` token of the underlying
timed rotating handler convention). -/
def specUnitMap (u : Char) : String :=
  if u = 's' then "S"
  else if u = 'm' then "M"
  else if u = 'h' then "H"
  else if u = 'd' then "D"
  else "W0"

/-- Default-constructed settings (all pydantic defaults). -/
def sDefault : LoggerSettings := {}

/-- A fresh logger state, as first returned by the registry. -/
def loggerInit : Logger := {}

/-- Settings whose configured destination list is `["syslog"]`. -/
def settingsSyslogOnly : LoggerSettings := { handlers := ["syslog"] }

/-- Settings with rotation string `"0d"`. -/
def settingsZeroD : LoggerSettings := { rotation := some "0d" }

/-- Settings with rotation string `"30s"`. -/
def settings30s : LoggerSettings := { rotation := some "30s" }

/-- Settings with retention string `"15d"`. -/
def settings15d : LoggerSettings := { retention := some "15d" }

theorem lastChar_concat : ∀ (l : List Char) (c : Char), lastChar (l ++ [c]) = c
  | [], _ => rfl
  | [_], _ => rfl
  | a :: b :: t, c => by
    have ih := lastChar_concat (b :: t) c
    simpa only [List.cons_append, lastChar] using ih

theorem dropLast_append_lastChar : ∀ (l : List Char), l ≠ [] → l.dropLast ++ [lastChar l] = l
  | [_], _ => rfl
  | a :: b :: t, _ => by
    have ih := dropLast_append_lastChar (b :: t) (by simp)
    show a :: ((b :: t).dropLast ++ [lastChar (b :: t)]) = a :: b :: t
    rw [ih]

theorem clearHandlers_eq_nil : ∀ (l : List Handler), clearHandlers l = []
  | [] => rfl
  | a :: l => by
    have ih := clearHandlers_eq_nil l
    unfold clearHandlers at ih ⊢
    rw [List.foldl_cons, List.erase_cons_head]
    exact ih

theorem get_logger_eq (s : LoggerSettings) (prev : Logger) :
    get_logger s prev = { level := get_log_level_int s, handlers := [get_console_handler s] } := by
  unfold get_logger get_default_handlers
  rw [clearHandlers_eq_nil]
  rfl

theorem parse_rotation_matched (s : LoggerSettings) (raw : String) (ds : List Char) (u : Char)
    (hr : s.rotation = some raw)
    (hd : (pyLower (pyStrip raw)).data = ds ++ [u])
    (hne : ds ≠ []) (hdig : ds.all Char.isDigit = true) (hu : u ∈ unitChars) :
    parse_rotation s = (specUnitMap u, natOfDigits ds) := by
  have hraw : raw.data.isEmpty = false := by
    cases hrl : raw.data with
    | nil =>
      exfalso
      simp [pyStrip, pyLower, hrl] at hd
    | cons a t => simp
  have ht : (pyLower (pyStrip raw)).data.isEmpty = false := by
    rw [hd]; simp
  have hdl : pyDropLast (pyLower (pyStrip raw)) = ⟨ds⟩ := by
    simp [pyDropLast, hd]
  have hl : pyLast (pyLower (pyStrip raw)) = u := by
    simp [pyLast, hd, lastChar_concat]
  have hdig' : pyIsDigit ⟨ds⟩ = true := by
    cases ds with
    | nil => exact absurd rfl hne
    | cons a t => simpa [pyIsDigit] using hdig
  have hu5 : u = 's' ∨ u = 'm' ∨ u = 'h' ∨ u = 'd' ∨ u = 'w' := by
    simpa [unitChars] using hu
  rcases hu5 with h | h | h | h | h <;> subst h <;>
    simp [parse_rotation, hr, hraw, ht, hdl, hl, hdig', hu, pyInt, specUnitMap]

theorem parse_retention_matched (s : LoggerSettings) (w : String) (raw : String)
    (ds : List Char) (u : Char)
    (hr : s.retention = some raw)
    (hd : (pyLower (pyStrip raw)).data = ds ++ [u])
    (hne : ds ≠ []) (hdig : ds.all Char.isDigit = true) (hu : u ∈ unitChars) :
    parse_retention s w = natOfDigits ds := by
  have hraw : raw.data.isEmpty = false := by
    cases hrl : raw.data with
    | nil =>
      exfalso
      simp [pyStrip, pyLower, hrl] at hd
    | cons a t => simp
  have ht : (pyLower (pyStrip raw)).data.isEmpty = false := by
    rw [hd]; simp
  have hdl : pyDropLast (pyLower (pyStrip raw)) = ⟨ds⟩ := by
    simp [pyDropLast, hd]
  have hl : pyLast (pyLower (pyStrip raw)) = u := by
    simp [pyLast, hd, lastChar_concat]
  have hdig' : pyIsDigit ⟨ds⟩ = true := by
    cases ds with
    | nil => exact absurd rfl hne
    | cons a t => simpa [pyIsDigit] using hdig
  simp [parse_retention, hr, hraw, ht, hdl, hl, hdig', hu, pyInt]

theorem parse_rotation_not_matched (s : LoggerSettings) (h : ¬ rotationShape s) :
    parse_rotation s = ("D", 1) := by
  cases hr : s.rotation with
  | none => simp [parse_rotation, hr]
  | some raw =>
    by_cases hraw : raw.data.isEmpty
    · simp [parse_rotation, hr, hraw]
    · by_cases ht : (pyLower (pyStrip raw)).data.isEmpty
      · simp [parse_rotation, hr, hraw, ht]
      · by_cases hdig : pyIsDigit (pyDropLast (pyLower (pyStrip raw)))
        · by_cases hcon : unitChars.contains (pyLast (pyLower (pyStrip raw)))
          · exfalso
            apply h
            have htne : (pyLower (pyStrip raw)).data ≠ [] := by
              intro hc
              rw [hc] at ht
              exact ht rfl
            have hsplit := dropLast_append_lastChar (pyLower (pyStrip raw)).data htne
            have hdig2 : ((pyLower (pyStrip raw)).data.dropLast.isEmpty = false) ∧
                (pyLower (pyStrip raw)).data.dropLast.all Char.isDigit = true := by
              simpa [pyIsDigit, pyDropLast] using hdig
            refine ⟨raw, (pyLower (pyStrip raw)).data.dropLast,
              lastChar (pyLower (pyStrip raw)).data, hr, hsplit.symm, ?_, hdig2.2, ?_⟩
            · intro hc
              rw [hc] at hdig2
              exact absurd hdig2.1 (by simp)
            · exact List.elem_iff.mp hcon
          · have hcon2 : pyLast (pyLower (pyStrip raw)) ∉ unitChars :=
              fun hm => hcon (List.elem_iff.mpr hm)
            simp [parse_rotation, hr, hraw, ht, hdig, hcon2]
        · simp [parse_rotation, hr, hraw, ht, hdig]

theorem parse_retention_not_matched (s : LoggerSettings) (w : String)
    (h : ¬ retentionShape s) : parse_retention s w = 7 := by
  cases hr : s.retention with
  | none => simp [parse_retention, hr]
  | some raw =>
    by_cases hraw : raw.data.isEmpty
    · simp [parse_retention, hr, hraw]
    · by_cases ht : (pyLower (pyStrip raw)).data.isEmpty
      · simp [parse_retention, hr, hraw, ht]
      · by_cases hdig : pyIsDigit (pyDropLast (pyLower (pyStrip raw)))
        · by_cases hcon : unitChars.contains (pyLast (pyLower (pyStrip raw)))
          · exfalso
            apply h
            have htne : (pyLower (pyStrip raw)).data ≠ [] := by
              intro hc
              rw [hc] at ht
              exact ht rfl
            have hsplit := dropLast_append_lastChar (pyLower (pyStrip raw)).data htne
            have hdig2 : ((pyLower (pyStrip raw)).data.dropLast.isEmpty = false) ∧
                (pyLower (pyStrip raw)).data.dropLast.all Char.isDigit = true := by
              simpa [pyIsDigit, pyDropLast] using hdig
            refine ⟨raw, (pyLower (pyStrip raw)).data.dropLast,
              lastChar (pyLower (pyStrip raw)).data, hr, hsplit.symm, ?_, hdig2.2, ?_⟩
            · intro hc
              rw [hc] at hdig2
              exact absurd hdig2.1 (by simp)
            · exact List.elem_iff.mp hcon
          · have hcon2 : pyLast (pyLower (pyStrip raw)) ∉ unitChars :=
              fun hm => hcon (List.elem_iff.mpr hm)
            simp [parse_retention, hr, hraw, ht, hdig, hcon2]
        · simp [parse_retention, hr, hraw, ht, hdig]

theorem specUnitMap_mem (u : Char) :
    specUnitMap u = "S" ∨ specUnitMap u = "M" ∨ specUnitMap u = "H" ∨
      specUnitMap u = "D" ∨ specUnitMap u = "W0" := by
  unfold specUnitMap
  split_ifs <;> simp

/-- C1: the claim says `get_logger` attaches the destinations enumerated by
`settings.handlers`; the code instead iterates the static
`get_default_handlers()` (always `["console"]`), so with
`handlers = ["syslog"]` configured, the assembled logger still carries
exactly one console handler and no syslog handler. This theorem evaluates
the embedded code at that failing input. -/
theorem get_logger_ignores_configured_handlers :
    settingsSyslogOnly.handlers = ["syslog"] ∧
    (get_logger settingsSyslogOnly loggerInit).handlers =
      [Handler.console ⟨FmtKind.text, "%Y-%m-%d %H:%M:%S"⟩] := by
  constructor
  · rfl
  · rfl

/-- C2: reassembling a logger under the same settings is idempotent — the
second `get_logger` call first detaches every handler attached by the
first, so the handler list (and level) equals that after a single call. -/
theorem get_logger_idempotent (s : LoggerSettings) (prev : Logger) :
    get_logger s (get_logger s prev) = get_logger s prev := by
  rw [get_logger_eq, get_logger_eq]

/-- C3, counterexample: for rotation string `"0d"` the parser returns
interval `0`, so the claimed invariant `interval ≥ 1` fails. -/
theorem parse_rotation_interval_zero :
    parse_rotation settingsZeroD = ("D", 0) ∧ ¬ (1 ≤ (parse_rotation settingsZeroD).2) := by
  constructor
  · rfl
  · decide

/-- C3, amended: for every rotation input the returned unit is among
{seconds, minutes, hours, days, weeks} and the interval is a nonnegative
integer; the interval is `0` only when the rotation string matches
`<digits><unit>` with a digit prefix denoting zero (e.g. `"0d"`), and is
`≥ 1` in every other case. -/
theorem parse_rotation_policy_invariant (s : LoggerSettings) :
    ((parse_rotation s).1 = "S" ∨ (parse_rotation s).1 = "M" ∨ (parse_rotation s).1 = "H" ∨
      (parse_rotation s).1 = "D" ∨ (parse_rotation s).1 = "W0") ∧
    ((parse_rotation s).2 = 0 →
      ∃ raw ds u, s.rotation = some raw ∧ (pyLower (pyStrip raw)).data = ds ++ [u] ∧
        ds ≠ [] ∧ ds.all Char.isDigit = true ∧ u ∈ unitChars ∧ natOfDigits ds = 0) := by
  by_cases hs : rotationShape s
  · obtain ⟨raw, ds, u, hr, hd, hne, hdig, hu⟩ := hs
    rw [parse_rotation_matched s raw ds u hr hd hne hdig hu]
    refine ⟨specUnitMap_mem u, fun h0 => ⟨raw, ds, u, hr, hd, hne, hdig, hu, h0⟩⟩
  · rw [parse_rotation_not_matched s hs]
    exact ⟨by simp, fun h0 => absurd h0 (by simp)⟩

/-- C3, witness for the amended theorem, at rotation `"0d"`. -/
theorem parse_rotation_policy_invariant_witness :
    ((parse_rotation settingsZeroD).1 = "S" ∨ (parse_rotation settingsZeroD).1 = "M" ∨
      (parse_rotation settingsZeroD).1 = "H" ∨ (parse_rotation settingsZeroD).1 = "D" ∨
      (parse_rotation settingsZeroD).1 = "W0") ∧
    (∃ raw ds u, settingsZeroD.rotation = some raw ∧
      (pyLower (pyStrip raw)).data = ds ++ [u] ∧
      ds ≠ [] ∧ ds.all Char.isDigit = true ∧ u ∈ unitChars ∧ natOfDigits ds = 0) :=
  ⟨(parse_rotation_policy_invariant settingsZeroD).1,
   (parse_rotation_policy_invariant settingsZeroD).2 (by decide)⟩

/-- C4: for every retention string matching `<digits><unit>` (after
trimming and lowercasing) the numeric prefix is returned unchanged as the
retained-file count, whichever unit suffix was given; for absent, empty or
non-matching retention strings the result is `7`. -/
theorem parse_retention_semantics :
    (∀ (s : LoggerSettings) (w raw : String) (ds : List Char) (u : Char),
      s.retention = some raw → (pyLower (pyStrip raw)).data = ds ++ [u] →
      ds ≠ [] → ds.all Char.isDigit = true → u ∈ unitChars →
      parse_retention s w = natOfDigits ds) ∧
    (∀ (s : LoggerSettings) (w : String), ¬ retentionShape s → parse_retention s w = 7) :=
  ⟨fun s w raw ds u hr hd hne hdig hu => parse_retention_matched s w raw ds u hr hd hne hdig hu,
   fun s w h => parse_retention_not_matched s w h⟩

/-- C4, witness: retention `"15d"` yields 15; absent retention yields 7. -/
theorem parse_retention_semantics_witness :
    parse_retention settings15d "D" = 15 ∧ parse_retention sDefault "D" = 7 := by
  constructor
  · have h := parse_retention_semantics.1 settings15d "D" "15d" ['1', '5'] 'd'
      rfl (by decide) (by decide) (by decide) (by decide)
    exact h.trans (by decide)
  · refine parse_retention_semantics.2 sDefault "D" ?_
    rintro ⟨raw, ds, u, hr, -⟩
    simp [sDefault] at hr

/-- C5: every rotation input not matching the `<digits><unit>` shape with
unit in {s, m, h, d, w} — absent, empty or whitespace-only strings,
non-digit prefixes, unrecognized or missing unit suffixes — yields the
default `("D", 1)`; the embedded parser is a total function, never an
exception. -/
theorem parse_rotation_malformed_defaults (s : LoggerSettings) (h : ¬ rotationShape s) :
    parse_rotation s = ("D", 1) :=
  parse_rotation_not_matched s h

/-- C5, witness: absent rotation gives the daily default. -/
theorem parse_rotation_malformed_defaults_witness :
    parse_rotation sDefault = ("D", 1) := by
  refine parse_rotation_malformed_defaults sDefault ?_
  rintro ⟨raw, ds, u, hr, -⟩
  simp [sDefault] at hr

/-- C6: every rotation string that trims and lowercases to
`<digits><unit>` with unit in {s, m, h, d, w} parses to the mapped unit
(s→"S" seconds, m→"M" minutes, h→"H" hours, d→"D" days, w→"W0" weeks
anchored to Monday) paired with the numeric value of the digit prefix. -/
theorem parse_rotation_valid_mapping (s : LoggerSettings) (raw : String)
    (ds : List Char) (u : Char)
    (hr : s.rotation = some raw)
    (hd : (pyLower (pyStrip raw)).data = ds ++ [u])
    (hne : ds ≠ []) (hdig : ds.all Char.isDigit = true) (hu : u ∈ unitChars) :
    parse_rotation s = (specUnitMap u, natOfDigits ds) :=
  parse_rotation_matched s raw ds u hr hd hne hdig hu

/-- C6, witness: `"30s"` parses to seconds with interval 30. -/
theorem parse_rotation_valid_mapping_witness :
    parse_rotation settings30s = ("S", 30) := by
  have h := parse_rotation_valid_mapping settings30s "30s" ['3', '0'] 's'
    rfl (by decide) (by decide) (by decide) (by decide)
  exact h.trans (by decide)

/-- C7: whenever the destination input normalizes to the empty list
(explicit empty list, all-blank comma string, or a non-string non-list
shape), the assembled logger carries exactly one destination — the
console handler. -/
theorem empty_destinations_console_fallback (v : HandlersInput) (s : LoggerSettings)
    (prev : Logger) (h : _parse_handlers v = []) :
    (get_logger { s with handlers := _parse_handlers v } prev).handlers =
      [get_console_handler { s with handlers := _parse_handlers v }] := by
  rw [get_logger_eq]

/-- C7, witness: an all-blank comma-separated destination string. -/
theorem empty_destinations_console_fallback_witness :
    _parse_handlers (HandlersInput.strInput " , ,") = [] ∧
    (get_logger { sDefault with handlers := _parse_handlers (HandlersInput.strInput " , ,") }
        loggerInit).handlers =
      [get_console_handler
        { sDefault with handlers := _parse_handlers (HandlersInput.strInput " , ,") }] :=
  ⟨by decide, empty_destinations_console_fallback (HandlersInput.strInput " , ,") sDefault
    loggerInit (by decide)⟩

/-- C10: the retained-file count computed by `parse_retention` is fully
determined by the retention string; the `rotation_when` argument accepted
by its signature is never consulted, so any two values of it yield equal
results. -/
theorem parse_retention_independent_of_rotation_when
    (s : LoggerSettings) (w1 w2 : String) :
    parse_retention s w1 = parse_retention s w2 := rfl

theorem data_append (s t : String) : (s ++ t).data = s.data ++ t.data := rfl

theorem escList_of_no_quote : ∀ (l : List Char), (∀ c ∈ l, c ≠ '"') → escList l = l
  | [], _ => rfl
  | c :: rest, h => by
    have hc : c ≠ '"' := h c (by simp)
    have ih := escList_of_no_quote rest (fun x hx => h x (by simp [hx]))
    simp [escList, hc, ih]

theorem mem_escList (c : Char) : ∀ (l : List Char), c ∈ escList l → c = '"' ∨ c ∈ l := by
  intro l
  induction l with
  | nil => intro h; simp [escList] at h
  | cons b rest ih =>
    intro h
    by_cases hb : b = '"'
    · subst hb
      rw [show escList ('"' :: rest) = '"' :: '"' :: escList rest from rfl] at h
      rcases List.mem_cons.mp h with h | h
      · exact Or.inl h
      rcases List.mem_cons.mp h with h | h
      · exact Or.inl h
      rcases ih h with h2 | h2
      · exact Or.inl h2
      · exact Or.inr (List.mem_cons_of_mem _ h2)
    · rw [show escList (b :: rest) = b :: escList rest from by simp [escList, hb]] at h
      rcases List.mem_cons.mp h with h | h
      · exact Or.inr (h ▸ List.mem_cons_self _ _)
      rcases ih h with h2 | h2
      · exact Or.inl h2
      · exact Or.inr (List.mem_cons_of_mem _ h2)

theorem csvAux_cons (acc : List Char) (c : Char) (rest : List Char) :
    csvAux acc (c :: rest) =
      if c = '"' then
        match rest with
        | [] => some [⟨acc⟩]
        | c2 :: rest2 =>
          if c2 = '"' then csvAux (acc ++ ['"']) rest2
          else if c2 = ',' then
            match rest2 with
            | [] => none
            | c3 :: rest3 =>
              if c3 = '"' then (csvAux [] rest3).map (fun fs => String.mk acc :: fs)
              else none
          else none
      else csvAux (acc ++ [c]) rest := by
  rw [csvAux.eq_def]

theorem csvAux_escQ (acc rest : List Char) :
    csvAux acc ('"' :: '"' :: rest) = csvAux (acc ++ ['"']) rest := by
  rw [csvAux_cons]
  simp

theorem csvAux_endQ (acc : List Char) : csvAux acc ['"'] = some [⟨acc⟩] := by
  rw [csvAux_cons]
  simp

theorem csvAux_sepQ (acc rest : List Char) :
    csvAux acc ('"' :: ',' :: '"' :: rest) =
      (csvAux [] rest).map (fun fs => String.mk acc :: fs) := by
  rw [csvAux_cons]
  simp [show (',' : Char) ≠ '"' from by decide]

theorem csvAux_other (acc rest : List Char) (c : Char) (hc : c ≠ '"') :
    csvAux acc (c :: rest) = csvAux (acc ++ [c]) rest := by
  rw [csvAux_cons, if_neg hc]

theorem csvAux_escaped_field : ∀ (m acc rest : List Char),
    csvAux acc (escList m ++ '"' :: rest) = csvAux (acc ++ m) ('"' :: rest)
  | [], acc, rest => by simp [escList]
  | c :: m', acc, rest => by
    by_cases hc : c = '"'
    · subst hc
      have ih := csvAux_escaped_field m' (acc ++ ['"']) rest
      calc csvAux acc (escList ('"' :: m') ++ '"' :: rest)
          = csvAux acc ('"' :: '"' :: (escList m' ++ '"' :: rest)) := by
            rw [show escList ('"' :: m') = '"' :: '"' :: escList m' from rfl,
              List.cons_append, List.cons_append]
        _ = csvAux (acc ++ ['"']) (escList m' ++ '"' :: rest) := csvAux_escQ _ _
        _ = csvAux ((acc ++ ['"']) ++ m') ('"' :: rest) := ih
        _ = csvAux (acc ++ '"' :: m') ('"' :: rest) := by
            rw [List.append_assoc, List.singleton_append]
    · have ih := csvAux_escaped_field m' (acc ++ [c]) rest
      calc csvAux acc (escList (c :: m') ++ '"' :: rest)
          = csvAux acc (c :: (escList m' ++ '"' :: rest)) := by
            rw [show escList (c :: m') = c :: escList m' from by simp [escList, hc],
              List.cons_append]
        _ = csvAux (acc ++ [c]) (escList m' ++ '"' :: rest) := csvAux_other _ _ _ hc
        _ = csvAux ((acc ++ [c]) ++ m') ('"' :: rest) := ih
        _ = csvAux (acc ++ c :: m') ('"' :: rest) := by
            rw [List.append_assoc, List.singleton_append]

theorem csvAux_quoted_field (F rest : List Char) (hF : ∀ c ∈ F, c ≠ '"') :
    csvAux [] (F ++ '"' :: rest) = csvAux F ('"' :: rest) := by
  conv_lhs => rw [← escList_of_no_quote F hF]
  exact csvAux_escaped_field F [] rest

theorem csvAux_four_fields (T L N M : List Char)
    (hT : ∀ c ∈ T, c ≠ '"') (hL : ∀ c ∈ L, c ≠ '"') (hN : ∀ c ∈ N, c ≠ '"') :
    csvAux [] (T ++ '"' :: ',' :: '"' ::
        (L ++ '"' :: ',' :: '"' :: (N ++ '"' :: ',' :: '"' :: (escList M ++ ['"'])))) =
      some [⟨T⟩, ⟨L⟩, ⟨N⟩, ⟨M⟩] := by
  have e4 : csvAux [] (escList M ++ ['"']) = some [(⟨M⟩ : String)] := by
    rw [show (['"'] : List Char) = '"' :: [] from rfl, csvAux_escaped_field,
      List.nil_append, csvAux_endQ]
  have e3 : csvAux [] (N ++ '"' :: ',' :: '"' :: (escList M ++ ['"'])) =
      some [(⟨N⟩ : String), ⟨M⟩] := by
    rw [csvAux_quoted_field N _ hN, csvAux_sepQ, e4]
    rfl
  have e2 : csvAux [] (L ++ '"' :: ',' :: '"' ::
      (N ++ '"' :: ',' :: '"' :: (escList M ++ ['"']))) =
      some [(⟨L⟩ : String), ⟨N⟩, ⟨M⟩] := by
    rw [csvAux_quoted_field L _ hL, csvAux_sepQ, e3]
    rfl
  rw [csvAux_quoted_field T _ hT, csvAux_sepQ, e2]
  rfl

theorem parseCsvLine_cons (s : String) (rest : List Char) (h : s.data = '"' :: rest) :
    parseCsvLine s = csvAux [] rest := by
  rw [parseCsvLine.eq_def, h]
  rfl

theorem csvFormat_data (timeR : Nat → String → String) (df : String) (r : LogRecord) :
    (CsvFormatter_format timeR df r).data =
      '"' :: ((timeR r.created df).data ++ '"' :: ',' :: '"' ::
        (r.levelname.data ++ '"' :: ',' :: '"' ::
          (r.name.data ++ '"' :: ',' :: '"' :: (escList r.msg.data ++ ['"'])))) := by
  show ("\"" ++ timeR r.created df ++ "\",\"" ++ r.levelname ++ "\",\"" ++ r.name ++
      "\",\"" ++ csvEscape r.msg ++ "\"").data = _
  simp only [data_append, csvEscape]
  simp [List.append_assoc]

/-- A fixed timestamp renderer used for concrete formatter evaluations. -/
def timeR0 : Nat → String → String := fun _ _ => "2026-01-01 00:00:00"

/-- A record whose logger name contains `","` and whose message contains a
newline. -/
def recC8 : LogRecord :=
  { created := 0, levelname := "INFO", name := "x\",\"y", msg := "a\nb",
    module := "m", lineno := 1 }

/-- A well-behaved record whose message contains double quotes and which
carries exception context. -/
def recC8ok : LogRecord :=
  { created := 0, levelname := "INFO", name := "app", msg := "say \"hi\"",
    module := "m", lineno := 3, exc_info := some "boom" }

/-- C8, counterexample: a logger name containing `","` makes the rendered
line parse as five double-quoted fields rather than four, and a newline in
the message makes the rendered record span more than one line. -/
theorem csv_format_not_always_four_fields :
    parseCsvLine (CsvFormatter_format timeR0 "%Y" recC8) =
      some ["2026-01-01 00:00:00", "INFO", "x", "y", "a\nb"] ∧
    '\n' ∈ (CsvFormatter_format timeR0 "%Y" recC8).data := by
  constructor
  · rfl
  · decide

/-- C8, amended: for every record whose rendered timestamp, level and name
contain no double-quote character, the CSV formatter's output parses as
exactly four comma-separated double-quoted fields that recover timestamp,
level, name and message (so each `"` in the message is doubled in the raw
output and commas/quotes in the message do not add fields); the output is
a single line whenever none of the four fields contains a newline; and
exception detail attached to the record is always dropped. -/
theorem csv_format_four_fields (timeR : Nat → String → String) (df : String) (r : LogRecord)
    (hT : ∀ c ∈ (timeR r.created df).data, c ≠ '"')
    (hL : ∀ c ∈ r.levelname.data, c ≠ '"')
    (hN : ∀ c ∈ r.name.data, c ≠ '"') :
    parseCsvLine (CsvFormatter_format timeR df r) =
      some [timeR r.created df, r.levelname, r.name, r.msg] ∧
    (('\n' ∉ (timeR r.created df).data ∧ '\n' ∉ r.levelname.data ∧
        '\n' ∉ r.name.data ∧ '\n' ∉ r.msg.data) →
      '\n' ∉ (CsvFormatter_format timeR df r).data) ∧
    CsvFormatter_format timeR df r = CsvFormatter_format timeR df { r with exc_info := none } := by
  refine ⟨?_, ?_, rfl⟩
  · rw [parseCsvLine_cons _ _ (csvFormat_data timeR df r),
      csvAux_four_fields (timeR r.created df).data r.levelname.data r.name.data
        r.msg.data hT hL hN]
  · rintro ⟨h1, h2, h3, h4⟩
    have hM : '\n' ∉ escList r.msg.data := by
      intro hmm
      rcases mem_escList '\n' r.msg.data hmm with h5 | h5
      · exact absurd h5 (by decide)
      · exact h4 h5
    have d1 : ('\n' : Char) ≠ '"' := by decide
    have d2 : ('\n' : Char) ≠ ',' := by decide
    intro hmem
    rw [csvFormat_data] at hmem
    simp [List.mem_cons, List.mem_append, d1, d2] at hmem
    rcases hmem with h | h | h | h
    · exact h1 h
    · exact h2 h
    · exact h3 h
    · exact hM h

/-- C8, witness for the amended theorem: a quote-bearing message with
exception context round-trips as exactly four fields. -/
theorem csv_format_four_fields_witness :
    parseCsvLine (CsvFormatter_format timeR0 "%Y" recC8ok) =
      some ["2026-01-01 00:00:00", "INFO", "app", "say \"hi\""] :=
  (csv_format_four_fields timeR0 "%Y" recC8ok (by decide) (by decide) (by decide)).1

theorem mem_str_append {c : Char} {s t : String} (h : c ∈ (s ++ t).data) :
    c ∈ s.data ∨ c ∈ t.data := by
  rw [data_append] at h
  exact List.mem_append.mp h

theorem hexDig_ne_newline (n : Nat) : hexDig n ≠ '\n' := by
  have hlt : n % 16 < 16 := Nat.mod_lt _ (by decide)
  have hall : ∀ m, m < 16 → "0123456789abcdef".data.getD m '0' ≠ '\n' := by decide
  exact hall _ hlt

theorem toHex4_no_newline (n : Nat) : '\n' ∉ toHex4 n := by
  intro hm
  rcases List.mem_cons.mp hm with h | hm
  · exact hexDig_ne_newline _ h.symm
  rcases List.mem_cons.mp hm with h | hm
  · exact hexDig_ne_newline _ h.symm
  rcases List.mem_cons.mp hm with h | hm
  · exact hexDig_ne_newline _ h.symm
  rcases List.mem_cons.mp hm with h | hm
  · exact hexDig_ne_newline _ h.symm
  · simp at hm

theorem hex_block_no_newline (n : Nat) : '\n' ∉ '\\' :: 'u' :: toHex4 n := by
  intro hm
  rcases List.mem_cons.mp hm with h | hm
  · exact absurd h (by decide)
  rcases List.mem_cons.mp hm with h | hm
  · exact absurd h (by decide)
  exact toHex4_no_newline _ hm

theorem jsonEscapeChar_no_newline (c : Char) : '\n' ∉ jsonEscapeChar c := by
  unfold jsonEscapeChar
  by_cases h1 : c = '"'
  · rw [if_pos h1]; decide
  rw [if_neg h1]
  by_cases h2 : c = '\\'
  · rw [if_pos h2]; decide
  rw [if_neg h2]
  by_cases h3 : c = '\n'
  · rw [if_pos h3]; decide
  rw [if_neg h3]
  by_cases h4 : c = '\t'
  · rw [if_pos h4]; decide
  rw [if_neg h4]
  by_cases h5 : c = '\r'
  · rw [if_pos h5]; decide
  rw [if_neg h5]
  by_cases h6 : c.toNat = 8
  · rw [if_pos h6]; decide
  rw [if_neg h6]
  by_cases h7 : c.toNat = 12
  · rw [if_pos h7]; decide
  rw [if_neg h7]
  by_cases h8 : c.toNat < 32
  · rw [if_pos h8]; exact hex_block_no_newline _
  rw [if_neg h8]
  by_cases h9 : c.toNat < 127
  · rw [if_pos h9]
    intro hm
    rcases List.mem_cons.mp hm with h | hm
    · exact h3 h.symm
    · simp at hm
  rw [if_neg h9]
  by_cases h10 : c.toNat ≤ 65535
  · rw [if_pos h10]; exact hex_block_no_newline _
  rw [if_neg h10]
  intro hm
  rcases List.mem_append.mp hm with hm | hm
  · exact hex_block_no_newline _ hm
  · exact hex_block_no_newline _ hm

theorem jsonEscape_no_newline (s : String) : '\n' ∉ (jsonEscape s).data := by
  intro hm
  rw [show (jsonEscape s).data = (s.data.map jsonEscapeChar).flatten from rfl] at hm
  rcases List.mem_flatten.mp hm with ⟨l, hl, hcl⟩
  rcases List.mem_map.mp hl with ⟨b, _, hb⟩
  exact jsonEscapeChar_no_newline b (hb ▸ hcl)

theorem jsonDumpStr_no_newline (s : String) : '\n' ∉ (jsonDumpStr s).data := by
  intro hm
  rcases mem_str_append hm with hm | hm
  · rcases mem_str_append hm with hm | hm
    · exact absurd hm (by decide)
    · exact jsonEscape_no_newline s hm
  · exact absurd hm (by decide)

theorem natReprAux_no_newline (n : Nat) :
    ∀ (acc : List Char), '\n' ∉ acc → '\n' ∉ natReprAux n acc := by
  induction n using Nat.strong_induction_on with
  | _ n ih =>
    intro acc hacc
    have hacc1 : '\n' ∉ hexDig (n % 10) :: acc := by
      intro hm
      rcases List.mem_cons.mp hm with h | h
      · exact hexDig_ne_newline _ h.symm
      · exact hacc h
    rw [natReprAux.eq_def]
    by_cases h10 : n < 10
    · simpa [h10] using hacc1
    · simp only [h10, if_false]
      exact ih (n / 10) (Nat.div_lt_self (by omega) (by decide)) _ hacc1

theorem natRepr_no_newline (n : Nat) : '\n' ∉ (natRepr n).data :=
  natReprAux_no_newline n [] (by simp)

theorem jsonVal_no_newline (v : JValue) : '\n' ∉ (jsonVal v).data := by
  cases v with
  | str s => exact jsonDumpStr_no_newline s
  | num n => exact natRepr_no_newline n

theorem jsonMembers_no_newline : ∀ (l : List (String × JValue)),
    '\n' ∉ (jsonMembers l).data
  | [] => by simp [jsonMembers]
  | [kv] => by
    intro hm
    rw [show jsonMembers [kv] = jsonDumpStr kv.1 ++ ": " ++ jsonVal kv.2 from rfl] at hm
    rcases mem_str_append hm with hm | hm
    · rcases mem_str_append hm with hm | hm
      · exact jsonDumpStr_no_newline kv.1 hm
      · exact absurd hm (by decide)
    · exact jsonVal_no_newline kv.2 hm
  | kv :: kv2 :: rest => by
    have ih := jsonMembers_no_newline (kv2 :: rest)
    intro hm
    rw [show jsonMembers (kv :: kv2 :: rest) =
      jsonDumpStr kv.1 ++ ": " ++ jsonVal kv.2 ++ ", " ++ jsonMembers (kv2 :: rest) from rfl] at hm
    rcases mem_str_append hm with hm | hm
    · rcases mem_str_append hm with hm | hm
      · rcases mem_str_append hm with hm | hm
        · rcases mem_str_append hm with hm | hm
          · exact jsonDumpStr_no_newline kv.1 hm
          · exact absurd hm (by decide)
        · exact jsonVal_no_newline kv.2 hm
      · exact absurd hm (by decide)
    · exact ih hm

/-- C9: for every log record, the JSON formatter's output is the
serialization of a JSON object whose keys are exactly
`timestamp, level, name, message, module, line`, followed by `exception`
exactly when exception context was supplied with the record; and the
serialized string is a single line (it contains no newline character, all
string content being escaped by the serializer). -/
theorem json_format_keys (timeR : Nat → String → String) (df : String) (r : LogRecord) :
    ∃ fields, JsonFormatter_format timeR df r = jsonDumps fields ∧
      fields.map Prod.fst =
        ["timestamp", "level", "name", "message", "module", "line"] ++
          (if r.exc_info.isSome then ["exception"] else []) ∧
      '\n' ∉ (JsonFormatter_format timeR df r).data := by
  refine ⟨logData timeR df r, rfl, ?_, ?_⟩
  · cases h : r.exc_info <;> simp [logData, h]
  · intro hm
    rw [show (JsonFormatter_format timeR df r).data =
      ("\x7b" ++ jsonMembers (logData timeR df r) ++ "\x7d").data from rfl] at hm
    rcases mem_str_append hm with hm | hm
    · rcases mem_str_append hm with hm | hm
      · exact absurd hm (by decide)
      · exact jsonMembers_no_newline _ hm
    · exact absurd hm (by decide)

end FastApiLog
